import Mathlib

/-!
Shallow embedding of the token ingestion service
(`src/hybrid_server.py`, `src/websocket_server.py`).

Python dicts are modelled as association lists (`dictFind`, `dictInsert`
mirror `d.get(k)` / `d[k] = v`); Python `set` membership mutation is
modelled on duplicate-free lists, with `setRemove` returning `none` for
the `KeyError` that `set.remove` raises on a missing element.  Optional
JSON fields are `Option` values (`none` = key absent); timestamps
(`datetime.now().isoformat()`) are threaded as explicit `String`
parameters.  Logging is modelled by counting warnings.
-/

set_option autoImplicit false

namespace TokenServer

/-- Model of the optional nested `user` object of a token-report payload:
`data.get("user", {})` with optional `name` / `email` keys. -/
structure UserInfo where
  name : Option String
  email : Option String
  deriving DecidableEq, Repr

/-- Parsed token-report payload (the JSON object handed to
`handle_token_update`): `accessToken`, optional `user`, `expires`,
`status`.  `none` models an absent key. -/
structure TokenPayload where
  accessToken : Option String
  user : Option UserInfo
  expires : Option String
  status : Option String
  deriving DecidableEq, Repr

/-- Python truthiness test `if not access_token` on
`data.get("accessToken")`: the token is present iff the key exists and
the string is non-empty. -/
def tokenPresent (p : TokenPayload) : Bool :=
  match p.accessToken with
  | none => false
  | some t => !t.isEmpty

/-- One stored registry record, as built by
`TokenHybridServer.handle_token_update` (lines 152-161) and
`TokenWebSocketServer.handle_token_update` (lines 124-132).  The hybrid
server stores a `"transport"` key (`transport = some _`); the legacy
WebSocket server stores no such key (`transport = none`). -/
structure TokenRecord where
  token : String
  user_name : String
  user_email : String
  expires : Option String
  status : String
  last_updated : String
  transport : Option String
  raw_data : TokenPayload
  deriving DecidableEq, Repr

/-- The token registry `self.tokens : Dict[str, dict]`, modelled as an
association list from token string to record. -/
abbrev Registry := List (String × TokenRecord)

/-- Python `d.get(k)` on an association list: first binding wins. -/
def dictFind {α : Type} : List (String × α) → String → Option α
  | [], _ => none
  | (k, v) :: rest, key => if key = k then some v else dictFind rest key

/-- Python `d[k] = v`: overwrite the binding in place if the key exists,
otherwise append a new binding (insertion order preserved). -/
def dictInsert {α : Type} : List (String × α) → String → α → List (String × α)
  | [], k, v => [(k, v)]
  | (k0, v0) :: rest, k, v =>
    if k0 = k then (k, v) :: rest else (k0, v0) :: dictInsert rest k v

/-- The broadcast payload built in `handle_token_update`
(`token_received`) or `request_token_refresh`.  The legacy WebSocket
server's `token_received` message carries no `"transport"` key
(`transport = none`). -/
structure BroadcastMsg where
  type : String
  user : String
  timestamp : String
  total_tokens : Nat
  transport : Option String
  deriving DecidableEq, Repr

/-- The per-field user-name default of `handle_token_update`:
`data.get("user", {}).get("name", "unknown")`. -/
def userNameOf (p : TokenPayload) : String :=
  match p.user with
  | none => "unknown"
  | some u => u.name.getD "unknown"

/-- The per-field user-email default of `handle_token_update`:
`data.get("user", {}).get("email", "unknown")`. -/
def userEmailOf (p : TokenPayload) : String :=
  match p.user with
  | none => "unknown"
  | some u => u.email.getD "unknown"

/-- `TokenHybridServer.handle_token_update` (lines 140-174): on a falsy
`accessToken` it logs one warning and returns with no store mutation and
no broadcast; otherwise it stores the record under the token key and
emits a single `token_received` broadcast.  Result: (registry, broadcast
messages handed to `broadcast`, number of warnings logged). -/
def handle_token_update (tokens : Registry) (data : TokenPayload)
    (transport now : String) : Registry × List BroadcastMsg × Nat :=
  match data.accessToken with
  | none => (tokens, [], 1)
  | some t =>
    if t.isEmpty then (tokens, [], 1)
    else
      let record : TokenRecord :=
        { token := t
          user_name := userNameOf data
          user_email := userEmailOf data
          expires := data.expires
          status := data.status.getD "active"
          last_updated := now
          transport := some transport
          raw_data := data }
      let tokens2 := dictInsert tokens t record
      (tokens2,
       [{ type := "token_received"
          user := userNameOf data
          timestamp := now
          total_tokens := tokens2.length
          transport := some transport }], 0)

/-- `TokenWebSocketServer.handle_token_update` (lines 112-144): identical
to the hybrid version except that the stored record and the broadcast
message carry no `"transport"` key. -/
def ws_handle_token_update (tokens : Registry) (data : TokenPayload)
    (now : String) : Registry × List BroadcastMsg × Nat :=
  match data.accessToken with
  | none => (tokens, [], 1)
  | some t =>
    if t.isEmpty then (tokens, [], 1)
    else
      let record : TokenRecord :=
        { token := t
          user_name := userNameOf data
          user_email := userEmailOf data
          expires := data.expires
          status := data.status.getD "active"
          last_updated := now
          transport := none
          raw_data := data }
      let tokens2 := dictInsert tokens t record
      (tokens2,
       [{ type := "token_received"
          user := userNameOf data
          timestamp := now
          total_tokens := tokens2.length
          transport := none }], 0)

/-- `get_token_info` (hybrid lines 323-325, legacy lines 182-184):
`self.tokens.get(token, {})`.  `none` stands for the `{}` default
returned for a missing key (see `tokensGet` for the raw-dict view). -/
def get_token_info (tokens : Registry) (token : String) : Option TokenRecord :=
  dictFind tokens token

/-- A raw Python dict with string values, for the dict-level view of the
registry used by `get_token_info`. -/
abbrev RawDict := List (String × String)

/-- Dict-level model of `self.tokens.get(token, {})`: total function, no
exception, the empty dict `[]` returned for a missing key. -/
def tokensGet (tokens : List (String × RawDict)) (token : String) : RawDict :=
  (dictFind tokens token).getD []

/-- Result of `clear_tokens` (hybrid lines 339-343): the registry
afterwards, the Python return value (the function body has no `return`
statement, so it returns `None`, modelled as `ret = none`), and the
count written to the log. -/
structure ClearResult where
  tokens : Registry
  ret : Option Nat
  logged : Nat
  deriving DecidableEq, Repr

/-- `TokenHybridServer.clear_tokens`: reads the size, clears the dict,
logs the size, returns `None`. -/
def clear_tokens (tokens : Registry) : ClearResult :=
  { tokens := [], ret := none, logged := tokens.length }

/-- Inbound WebSocket frame after `json.loads` and the `type` dispatch of
`handle_message` (hybrid lines 96-138, legacy lines 68-110).
`malformed` is a frame that fails to parse (`json.JSONDecodeError`). -/
inductive InMsg where
  | connection (client : Option String)
  | token_update (data : TokenPayload)
  | token_error (err : Option String) (status : Option String)
  | heartbeat
  | pong
  | unknownType (t : Option String)
  | malformed
  deriving DecidableEq, Repr

/-- Outbound reply sent to the reporting connection via `send_message`. -/
inductive OutMsg where
  | welcome (message timestamp server_version : String)
  | pong (timestamp : String)
  deriving DecidableEq, Repr

/-- Observable effects of handling one inbound frame: the registry
afterwards, replies sent back to the sender, messages handed to
`broadcast`, and the number of warnings logged. -/
structure StepOut where
  tokens : Registry
  replies : List OutMsg
  broadcasts : List BroadcastMsg
  warnings : Nat
  deriving DecidableEq, Repr

/-- `TokenHybridServer.handle_message` (lines 96-138): dispatch on the
`type` field; `token_update` is handled with `transport="websocket"`;
unknown types and `token_error` log a warning; a parse failure logs an
error and continues. -/
def hybrid_handle_message (tokens : Registry) (m : InMsg) (now : String) : StepOut :=
  match m with
  | .connection _ =>
      ⟨tokens, [.welcome "WebSocket服务器连接成功" now "1.0.0"], [], 0⟩
  | .token_update p =>
      let r := handle_token_update tokens p "websocket" now
      ⟨r.1, [], r.2.1, r.2.2⟩
  | .token_error _ _ => ⟨tokens, [], [], 1⟩
  | .heartbeat => ⟨tokens, [.pong now], [], 0⟩
  | .pong => ⟨tokens, [], [], 0⟩
  | .unknownType _ => ⟨tokens, [], [], 1⟩
  | .malformed => ⟨tokens, [], [], 0⟩

/-- `TokenWebSocketServer.handle_message` (lines 68-110): identical
dispatch, with the legacy transport-free `handle_token_update`. -/
def ws_handle_message (tokens : Registry) (m : InMsg) (now : String) : StepOut :=
  match m with
  | .connection _ =>
      ⟨tokens, [.welcome "WebSocket服务器连接成功" now "1.0.0"], [], 0⟩
  | .token_update p =>
      let r := ws_handle_token_update tokens p now
      ⟨r.1, [], r.2.1, r.2.2⟩
  | .token_error _ _ => ⟨tokens, [], [], 1⟩
  | .heartbeat => ⟨tokens, [.pong now], [], 0⟩
  | .pong => ⟨tokens, [], [], 0⟩
  | .unknownType _ => ⟨tokens, [], [], 1⟩
  | .malformed => ⟨tokens, [], [], 0⟩

/-- Run the hybrid server's message handler over a sequence of inbound
frames (each paired with its arrival timestamp), collecting the final
registry and all broadcast messages in order. -/
def runHybrid (tokens : Registry) : List (InMsg × String) → Registry × List BroadcastMsg
  | [] => (tokens, [])
  | (m, now) :: rest =>
    let s := hybrid_handle_message tokens m now
    let r := runHybrid s.tokens rest
    (r.1, s.broadcasts ++ r.2)

/-- Run the legacy WebSocket server's message handler over a sequence of
inbound frames. -/
def runWS (tokens : Registry) : List (InMsg × String) → Registry × List BroadcastMsg
  | [] => (tokens, [])
  | (m, now) :: rest =>
    let s := ws_handle_message tokens m now
    let r := runWS s.tokens rest
    (r.1, s.broadcasts ++ r.2)

/-- Drop the `"transport"` key from a stored record (the hybrid record
minus the one field the legacy record never stores). -/
def eraseRecT (r : TokenRecord) : TokenRecord :=
  { r with transport := none }

/-- Drop the `"transport"` key from every record of a registry. -/
def eraseRegT : Registry → Registry
  | [] => []
  | kv :: tl => (kv.1, eraseRecT kv.2) :: eraseRegT tl

/-- Drop the `"transport"` key from a broadcast message. -/
def eraseBMsgT (b : BroadcastMsg) : BroadcastMsg :=
  { b with transport := none }

/-- One summary row of GET `/api/tokens`
(`TokenHybridServer.handle_get_tokens`, lines 283-302). -/
structure TokenSummary where
  user_name : String
  user_email : String
  last_updated : String
  status : String
  transport : String
  token_preview : String
  deriving DecidableEq, Repr

/-- The preview expression of `handle_get_tokens` line 294:
`token_info.get('token', '')[:8] + '...' if token_info.get('token') else ''`. -/
def tokenPreview (token : String) : String :=
  if token.isEmpty then "" else token.take 8 ++ "..."

/-- Build one summary row from a stored record (lines 288-295). -/
def summarize (r : TokenRecord) : TokenSummary :=
  { user_name := r.user_name
    user_email := r.user_email
    last_updated := r.last_updated
    status := r.status
    transport := r.transport.getD "unknown"
    token_preview := tokenPreview r.token }

/-- `TokenHybridServer.handle_get_tokens` (lines 283-302): one summary
row per stored record, in registry order. -/
def handle_get_tokens (tokens : Registry) : List TokenSummary :=
  tokens.map (fun kv => summarize kv.2)

/-- One WebSocket connection: an identity and whether `await
client.send(...)` succeeds for it (failure models the exception branch
of `broadcast`). -/
structure Conn where
  cid : Nat
  sendOk : Bool
  deriving DecidableEq, Repr

/-- Python `set.remove(c)`: returns the set without `c`, or `none` for
the `KeyError` raised when `c` is absent. -/
def setRemove : List Conn → Conn → Option (List Conn)
  | [], _ => none
  | x :: rest, c =>
    if x = c then some rest else (setRemove rest c).map (fun s => x :: s)

/-- The removal loop at the end of `broadcast` (hybrid lines 204-206):
`for client in disconnected: self.connected_clients.remove(client)`;
a `KeyError` aborts the loop (`none`). -/
def removeAll : List Conn → List Conn → Option (List Conn)
  | s, [] => some s
  | s, c :: cs =>
    match setRemove s c with
    | none => none
    | some s2 => removeAll s2 cs

/-- The send loop of `broadcast` (hybrid lines 197-202): iterate the
membership, attempt `client.send(payload)` on each member, collect
successful deliveries and the members whose send failed.  Returns
(members attempted in order, deliveries, disconnected). -/
def sendLoop (payload : String) : List Conn → List Conn × List (Conn × String) × List Conn
  | [] => ([], [], [])
  | c :: cs =>
    let r := sendLoop payload cs
    if c.sendOk then (c :: r.1, (c, payload) :: r.2.1, r.2.2)
    else (c :: r.1, r.2.1, c :: r.2.2)

/-- Observable outcome of one `broadcast` call: which members were
attempted, which deliveries succeeded, and the membership afterwards
(`none` = a `KeyError` escaped the removal loop). -/
structure BroadcastOut where
  attempted : List Conn
  delivered : List (Conn × String)
  clients : Option (List Conn)
  deriving DecidableEq, Repr

/-- `TokenHybridServer.broadcast` (lines 192-206) = `TokenWebSocketServer.broadcast`
(lines 162-176): early return on an empty membership; otherwise attempt
delivery to every member, deferring removals to after the pass. -/
def broadcastConn (clients : List Conn) (payload : String) : BroadcastOut :=
  if clients.isEmpty then ⟨[], [], some clients⟩
  else
    let r := sendLoop payload clients
    ⟨r.1, r.2.1, removeAll clients r.2.2⟩

/-- The `finally` block of `handle_client` (hybrid line 94, legacy line
66): `self.connected_clients.remove(websocket)` when the receive loop
ends. -/
def handle_client_cleanup (clients : List Conn) (w : Conn) : Option (List Conn) :=
  setRemove clients w

/-- Body of a POST `/api/token` request as seen by `handle_http_token`:
either a parsed JSON object or an undecodable body
(`json.JSONDecodeError`). -/
inductive HttpBody where
  | parsed (p : TokenPayload)
  | invalid
  deriving DecidableEq, Repr

/-- JSON response of an HTTP endpoint: status code, `status` field,
`message` field, optional `timestamp` field. -/
structure HttpResponse where
  statusCode : Nat
  status : String
  message : String
  timestamp : Option String
  deriving DecidableEq, Repr

/-- `TokenHybridServer.handle_http_token` (lines 236-270).  `fault`
models the `except Exception` branch: an unexpected failure inside the
handler after validation, answered with a 500.  Result: (registry,
response, broadcast messages). -/
def handle_http_token (tokens : Registry) (body : HttpBody) (fault : Bool)
    (now : String) : Registry × HttpResponse × List BroadcastMsg :=
  match body with
  | .invalid => (tokens, ⟨400, "error", "Invalid JSON format", none⟩, [])
  | .parsed p =>
    if !tokenPresent p then
      (tokens, ⟨400, "error", "Missing accessToken field", none⟩, [])
    else if fault then
      (tokens, ⟨500, "error", "Internal server error", none⟩, [])
    else
      let r := handle_token_update tokens p "http" now
      (r.1, ⟨200, "success", "Token received successfully", some now⟩, r.2.1)

/-- Runtime environment of `TokenHybridServer.start`: module
availability flags and whether each listener's bind succeeds. -/
structure StartEnv where
  websockets_available : Bool
  aiohttp_available : Bool
  ws_bind_ok : Bool
  http_bind_ok : Bool
  deriving DecidableEq, Repr

/-- Outcome of `TokenHybridServer.start`: its return value, whether each
listener ended up running, and the `is_running` flag. -/
structure StartResult where
  ret : Bool
  ws_started : Bool
  http_started : Bool
  is_running : Bool
  deriving DecidableEq, Repr

/-- `TokenHybridServer.start_http_server` (lines 209-227): no-op when
aiohttp is unavailable; otherwise tries to bind and catches its own
exception, so it never propagates a failure. -/
def start_http_server (env : StartEnv) : Bool :=
  if !env.aiohttp_available then false
  else env.http_bind_ok

/-- `TokenHybridServer.start` (lines 38-64): returns `False` at once
when the websockets module is missing (the HTTP listener is never
attempted); a failing WebSocket bind raises before `start_http_server`
is reached, so it too leaves the HTTP listener down; otherwise the HTTP
listener is started when aiohttp is available, and `is_running` is set. -/
def start (env : StartEnv) : StartResult :=
  if !env.websockets_available then ⟨false, false, false, false⟩
  else if !env.ws_bind_ok then ⟨false, false, false, false⟩
  else
    let http := if env.aiohttp_available then start_http_server env else false
    ⟨true, true, http, true⟩

/-- Concrete payload for exercising the upsert/get round trip. -/
def C2payload : TokenPayload :=
  ⟨some "tok12345", some ⟨some "bob", none⟩, none, some "expired"⟩

/-- Concrete membership with one member whose send fails. -/
def C3clients : List Conn := [⟨1, true⟩, ⟨2, false⟩, ⟨3, true⟩]

/-- A connection whose send fails, so that `broadcast` prunes it. -/
def C4conn : Conn := ⟨1, false⟩

/-- A stored record whose token is shorter than the 8-character preview
window. -/
def shortRecord : TokenRecord :=
  { token := "short"
    user_name := "alice"
    user_email := "alice@example.com"
    expires := none
    status := "active"
    last_updated := "t0"
    transport := some "http"
    raw_data := ⟨some "short", none, none, none⟩ }

/-- A record for the one-element registry handed to `clear_tokens`. -/
def C5record : TokenRecord :=
  { token := "tk"
    user_name := "u"
    user_email := "e"
    expires := none
    status := "active"
    last_updated := "t0"
    transport := some "http"
    raw_data := ⟨some "tk", none, none, none⟩ }

/-- A one-record registry. -/
def C5reg : Registry := [("tk", C5record)]

/-- A token-update payload whose `accessToken` is the empty string. -/
def C6payload : TokenPayload := ⟨some "", none, none, none⟩

/-- A token-report payload with no `accessToken` key at all. -/
def C7empty : TokenPayload := ⟨none, none, none, none⟩

/-- Runtime with the websockets module missing but aiohttp fully
available. -/
def C8env : StartEnv := ⟨false, true, true, true⟩

/-- Runtime with websockets available but aiohttp missing. -/
def C8envNoHttp : StartEnv := ⟨true, false, true, true⟩

/-- A plain token-update payload sent over the WebSocket transport. -/
def C9payload : TokenPayload := ⟨some "tok-abcdef", none, none, none⟩

/-- A single-frame inbound sequence. -/
def C9frames : List (InMsg × String) := [(InMsg.token_update C9payload, "t0")]

/-- A non-empty raw record value. -/
def C10dict : RawDict := [("k", "v")]

/-- A raw registry that does not contain the key queried below. -/
def C10reg : List (String × RawDict) := [("a", C10dict)]

/-- Lookup after insert hits the inserted binding. -/
theorem dictFind_dictInsert_self {α : Type} (d : List (String × α)) (k : String) (v : α) :
    dictFind (dictInsert d k v) k = some v := by
  induction d with
  | nil => simp [dictInsert, dictFind]
  | cons hd tl ih =>
    obtain ⟨k0, v0⟩ := hd
    by_cases h : k0 = k
    · simp [dictInsert, dictFind, h]
    · simp only [dictInsert, if_neg h]
      have h2 : ¬ k = k0 := fun hh => h hh.symm
      simp [dictFind, h2, ih]

/-- The send loop characterized: it attempts every member in order,
delivers to exactly the members whose send succeeds, and collects
exactly the members whose send fails. -/
theorem sendLoop_eq (payload : String) (s : List Conn) :
    sendLoop payload s =
      (s, (s.filter (fun c => c.sendOk)).map (fun c => (c, payload)),
       s.filter (fun c => !c.sendOk)) := by
  induction s with
  | nil => rfl
  | cons c cs ih =>
    by_cases h : c.sendOk <;>
      simp [sendLoop, ih, List.filter_cons, h]

/-- `set.remove` succeeds on a present element. -/
theorem setRemove_of_mem {s : List Conn} {c : Conn} (h : c ∈ s) :
    ∃ s2, setRemove s c = some s2 := by
  induction s with
  | nil => cases h
  | cons x rest ih =>
    by_cases hx : x = c
    · exact ⟨rest, by simp [setRemove, hx]⟩
    · have hc : c ∈ rest := by
        rcases List.mem_cons.mp h with h1 | h2
        · exact absurd h1.symm hx
        · exact h2
      obtain ⟨s2, hs2⟩ := ih hc
      exact ⟨x :: s2, by simp [setRemove, hx, hs2]⟩

/-- `set.remove` raises `KeyError` on an absent element. -/
theorem setRemove_of_not_mem {s : List Conn} {c : Conn} (h : c ∉ s) :
    setRemove s c = none := by
  induction s with
  | nil => rfl
  | cons x rest ih =>
    have hx : ¬ x = c := fun he => h (he ▸ List.mem_cons_self x rest)
    have hr : c ∉ rest := fun hm => h (List.mem_cons_of_mem x hm)
    simp [setRemove, hx, ih hr]

/-- Membership after a successful `set.remove` on a duplicate-free set. -/
theorem mem_setRemove {s : List Conn} {c : Conn} {s2 : List Conn}
    (hnd : s.Nodup) (h : setRemove s c = some s2) :
    ∀ x, x ∈ s2 ↔ x ∈ s ∧ x ≠ c := by
  induction s generalizing s2 with
  | nil => exact Option.noConfusion h
  | cons y rest ih =>
    have hy := List.nodup_cons.mp hnd
    by_cases hx : y = c
    · simp only [setRemove, if_pos hx] at h
      cases h
      intro x
      constructor
      · intro hxs
        refine ⟨List.mem_cons_of_mem y hxs, fun he => ?_⟩
        exact hy.1 (hx ▸ he ▸ hxs)
      · rintro ⟨hxs, hne⟩
        rcases List.mem_cons.mp hxs with h1 | h2
        · exact absurd (h1.trans hx) hne
        · exact h2
    · simp only [setRemove, if_neg hx] at h
      cases hr : setRemove rest c with
      | none => rw [hr] at h; cases h
      | some t =>
        rw [hr] at h
        simp only [Option.map_some'] at h
        cases h
        intro x
        rw [List.mem_cons, List.mem_cons, ih hy.2 hr x]
        constructor
        · rintro (h1 | ⟨h2, h3⟩)
          · exact ⟨Or.inl h1, fun he => hx (h1.symm.trans he)⟩
          · exact ⟨Or.inr h2, h3⟩
        · rintro ⟨h1 | h1, h2⟩
          · exact Or.inl h1
          · exact Or.inr ⟨h1, h2⟩

/-- `set.remove` preserves freedom from duplicates. -/
theorem setRemove_nodup {s : List Conn} {c : Conn} {s2 : List Conn}
    (hnd : s.Nodup) (h : setRemove s c = some s2) : s2.Nodup := by
  induction s generalizing s2 with
  | nil => exact Option.noConfusion h
  | cons y rest ih =>
    have hy := List.nodup_cons.mp hnd
    by_cases hx : y = c
    · simp only [setRemove, if_pos hx] at h
      cases h
      exact hy.2
    · simp only [setRemove, if_neg hx] at h
      cases hr : setRemove rest c with
      | none => rw [hr] at h; cases h
      | some t =>
        rw [hr] at h
        simp only [Option.map_some'] at h
        cases h
        refine List.nodup_cons.mpr ⟨fun hm => ?_, ih hy.2 hr⟩
        exact hy.1 ((mem_setRemove hy.2 hr y).mp hm).1

/-- The removal loop succeeds on a duplicate-free batch of members all
present in a duplicate-free set, and removes exactly that batch. -/
theorem removeAll_spec (ds : List Conn) :
    ∀ s : List Conn, s.Nodup → ds.Nodup → (∀ c ∈ ds, c ∈ s) →
      ∃ s2, removeAll s ds = some s2 ∧ s2.Nodup ∧
        (∀ x, x ∈ s2 ↔ x ∈ s ∧ x ∉ ds) := by
  induction ds with
  | nil =>
    intro s hs _ _
    exact ⟨s, rfl, hs, fun x => by simp⟩
  | cons c cs ih =>
    intro s hs hd hsub
    have hc : c ∈ s := hsub c (List.mem_cons_self c cs)
    obtain ⟨s1, hs1⟩ := setRemove_of_mem hc
    have hmem := mem_setRemove hs hs1
    have hnd1 := setRemove_nodup hs hs1
    have hdc := List.nodup_cons.mp hd
    have hsub1 : ∀ x ∈ cs, x ∈ s1 := fun x hx =>
      (hmem x).mpr ⟨hsub x (List.mem_cons_of_mem c hx),
        fun he => hdc.1 (he ▸ hx)⟩
    obtain ⟨s2, h2, hnd2, hm2⟩ := ih s1 hnd1 hdc.2 hsub1
    refine ⟨s2, ?_, hnd2, ?_⟩
    · simp [removeAll, hs1, h2]
    · intro x
      rw [hm2 x, hmem x, List.mem_cons]
      constructor
      · rintro ⟨⟨hxs, hxc⟩, hxcs⟩
        exact ⟨hxs, fun hor => hor.elim hxc hxcs⟩
      · rintro ⟨hxs, hncons⟩
        exact ⟨⟨hxs, fun he => hncons (Or.inl he)⟩,
          fun hx => hncons (Or.inr hx)⟩

/-- Unfolding of the transport-erasure map on a cons cell. -/
theorem eraseRegT_cons (kv : String × TokenRecord) (tl : Registry) :
    eraseRegT (kv :: tl) = (kv.1, eraseRecT kv.2) :: eraseRegT tl := rfl

/-- Erasing the transport field commutes with a registry insert. -/
theorem eraseRegT_dictInsert (d : Registry) (k : String) (v : TokenRecord) :
    eraseRegT (dictInsert d k v) = dictInsert (eraseRegT d) k (eraseRecT v) := by
  induction d with
  | nil => rfl
  | cons hd tl ih =>
    obtain ⟨k0, v0⟩ := hd
    by_cases h : k0 = k <;>
      simp [dictInsert, eraseRegT_cons, h, ih]

/-- Erasing the transport field preserves the registry size. -/
theorem eraseRegT_length (d : Registry) : (eraseRegT d).length = d.length := by
  induction d with
  | nil => rfl
  | cons hd tl ih => simp [eraseRegT, ih]

/-- One handler step of the legacy server equals the hybrid step with
the transport field erased from the registry and from the broadcasts. -/
theorem step_equiv (tokens : Registry) (m : InMsg) (now : String) :
    (ws_handle_message (eraseRegT tokens) m now).tokens =
      eraseRegT (hybrid_handle_message tokens m now).tokens ∧
    (ws_handle_message (eraseRegT tokens) m now).broadcasts =
      (hybrid_handle_message tokens m now).broadcasts.map eraseBMsgT := by
  cases m with
  | token_update p =>
    cases hp : p.accessToken with
    | none =>
      simp [ws_handle_message, hybrid_handle_message,
        ws_handle_token_update, handle_token_update, hp]
    | some t =>
      by_cases ht : t.isEmpty
      · simp [ws_handle_message, hybrid_handle_message,
          ws_handle_token_update, handle_token_update, hp, ht]
      · have h1 :
            dictInsert (eraseRegT tokens) t
                { token := t, user_name := userNameOf p,
                  user_email := userEmailOf p, expires := p.expires,
                  status := p.status.getD "active", last_updated := now,
                  transport := none, raw_data := p } =
              eraseRegT (dictInsert tokens t
                { token := t, user_name := userNameOf p,
                  user_email := userEmailOf p, expires := p.expires,
                  status := p.status.getD "active", last_updated := now,
                  transport := some "websocket", raw_data := p }) :=
          (eraseRegT_dictInsert tokens t
            { token := t, user_name := userNameOf p,
              user_email := userEmailOf p, expires := p.expires,
              status := p.status.getD "active", last_updated := now,
              transport := some "websocket", raw_data := p }).symm
        have h2 :
            (dictInsert (eraseRegT tokens) t
                { token := t, user_name := userNameOf p,
                  user_email := userEmailOf p, expires := p.expires,
                  status := p.status.getD "active", last_updated := now,
                  transport := none, raw_data := p }).length =
              (dictInsert tokens t
                { token := t, user_name := userNameOf p,
                  user_email := userEmailOf p, expires := p.expires,
                  status := p.status.getD "active", last_updated := now,
                  transport := some "websocket", raw_data := p }).length := by
          rw [h1, eraseRegT_length]
        simp only [ws_handle_message, hybrid_handle_message,
          ws_handle_token_update, handle_token_update, hp, ht,
          Bool.false_eq_true, if_false, if_neg]
        constructor
        · exact h1
        · simp only [List.map_cons, List.map_nil, eraseBMsgT]
          rw [h2]
  | connection c =>
    simp [ws_handle_message, hybrid_handle_message]
  | token_error e st =>
    simp [ws_handle_message, hybrid_handle_message]
  | heartbeat =>
    simp [ws_handle_message, hybrid_handle_message]
  | pong =>
    simp [ws_handle_message, hybrid_handle_message]
  | unknownType t =>
    simp [ws_handle_message, hybrid_handle_message]
  | malformed =>
    simp [ws_handle_message, hybrid_handle_message]

/-- Claim C1 (code bug): on the one-record registry whose stored token is
"short" (length 5), the GET `/api/tokens` summary row has
`token_preview = "short..."`, which carries the full token value as a
prefix — the listing does expose a full token value, contradicting the
claim (and the code's own comment that the full token is never
returned).  The preview-format half of the claim does hold: for tokens
of length >= 8 the preview is the first 8 characters plus "...". -/
theorem handle_get_tokens_short_token_exposed :
    handle_get_tokens [("short", shortRecord)] =
      [{ user_name := "alice", user_email := "alice@example.com",
         last_updated := "t0", status := "active", transport := "http",
         token_preview := "short..." }] ∧
    tokenPreview "short" = "short" ++ "..." ∧
    ("short".data).isPrefixOf ((tokenPreview "short").data) = true := by
  exact ⟨by decide, by decide, by decide⟩

/-- Claim C2 (confirmed): upserting a payload with a non-empty
`accessToken` and then querying that token returns a record whose
`token` is the access token and whose user name, email and status equal
the payload's fields, with the declared defaults "unknown" / "unknown" /
"active" when the corresponding field is absent. -/
theorem upsert_then_get_matches (tokens : Registry) (p : TokenPayload)
    (transport now t : String) (h1 : p.accessToken = some t)
    (h2 : t.isEmpty = false) :
    ∃ r, get_token_info (handle_token_update tokens p transport now).1 t = some r ∧
      r.token = t ∧
      (p.user = none → r.user_name = "unknown" ∧ r.user_email = "unknown") ∧
      (∀ u, p.user = some u →
        (∀ n, u.name = some n → r.user_name = n) ∧
        (u.name = none → r.user_name = "unknown") ∧
        (∀ e, u.email = some e → r.user_email = e) ∧
        (u.email = none → r.user_email = "unknown")) ∧
      (∀ s, p.status = some s → r.status = s) ∧
      (p.status = none → r.status = "active") := by
  refine ⟨{ token := t, user_name := userNameOf p, user_email := userEmailOf p,
            expires := p.expires, status := p.status.getD "active",
            last_updated := now, transport := some transport, raw_data := p },
          ?_, rfl, ?_, ?_, ?_, ?_⟩
  · simp only [handle_token_update, get_token_info, h1, h2,
      Bool.false_eq_true, if_false]
    exact dictFind_dictInsert_self tokens t _
  · intro hu
    simp [userNameOf, userEmailOf, hu]
  · intro u hu
    refine ⟨?_, ?_, ?_, ?_⟩
    · intro n hn; simp [userNameOf, hu, hn]
    · intro hn; simp [userNameOf, hu, hn]
    · intro e he; simp [userEmailOf, hu, he]
    · intro he; simp [userEmailOf, hu, he]
  · intro s hs; simp [hs]
  · intro hs; simp [hs]

/-- Witness for C2 at a concrete payload: token "tok12345", user name
"bob" present, email absent (defaulted), status "expired" present. -/
theorem upsert_then_get_matches_witness :
    ∃ r, get_token_info (handle_token_update [] C2payload "websocket" "t1").1
        "tok12345" = some r ∧
      r.token = "tok12345" ∧ r.user_name = "bob" ∧
      r.user_email = "unknown" ∧ r.status = "expired" := by
  obtain ⟨r, hr, htok, _, hsome, hst, _⟩ :=
    upsert_then_get_matches [] C2payload "websocket" "t1" "tok12345" rfl rfl
  obtain ⟨hn, _, _, he⟩ := hsome ⟨some "bob", none⟩ rfl
  exact ⟨r, hr, htok, hn "bob" rfl, he rfl, hst "expired" rfl⟩

/-- Claim C3 (confirmed): `broadcast` on a duplicate-free membership
attempts every member of the pre-broadcast set (the set iterated is the
original membership, unmutated during iteration), a failing member does
not prevent delivery to any member whose send succeeds, the deferred
removal loop raises no error, and afterwards the membership consists of
exactly the members whose send succeeded — every member whose send
failed is absent. -/
theorem broadcast_fault_isolation (clients : List Conn) (payload : String)
    (hnd : clients.Nodup) :
    (broadcastConn clients payload).attempted = clients ∧
    (∀ c, c ∈ clients → c.sendOk = true →
      (c, payload) ∈ (broadcastConn clients payload).delivered) ∧
    ∃ s2, (broadcastConn clients payload).clients = some s2 ∧
      ∀ c, c ∈ s2 ↔ c ∈ clients ∧ c.sendOk = true := by
  by_cases he : clients.isEmpty
  · have hnil : clients = [] := List.isEmpty_iff.mp he
    subst hnil
    refine ⟨rfl, ?_, [], rfl, ?_⟩
    · intro c hc; cases hc
    · intro c; simp
  · have hbc : broadcastConn clients payload =
        ⟨clients,
         (clients.filter (fun c => c.sendOk)).map (fun c => (c, payload)),
         removeAll clients (clients.filter (fun c => !c.sendOk))⟩ := by
      simp [broadcastConn, he, sendLoop_eq]
    have hsub : ∀ c ∈ clients.filter (fun c => !c.sendOk), c ∈ clients :=
      fun c hc => (List.mem_filter.mp hc).1
    have hndf : (clients.filter (fun c => !c.sendOk)).Nodup :=
      hnd.filter _
    obtain ⟨s2, hs2, hnd2, hm2⟩ :=
      removeAll_spec (clients.filter (fun c => !c.sendOk)) clients hnd hndf hsub
    refine ⟨?_, ?_, s2, ?_, ?_⟩
    · rw [hbc]
    · intro c hc hok
      rw [hbc]
      exact List.mem_map.mpr ⟨c, List.mem_filter.mpr ⟨hc, hok⟩, rfl⟩
    · rw [hbc]; exact hs2
    · intro c
      rw [hm2 c]
      constructor
      · rintro ⟨hcs, hnin⟩
        refine ⟨hcs, ?_⟩
        by_cases hok : c.sendOk
        · exact hok
        · exact absurd (List.mem_filter.mpr ⟨hcs, by simp [hok]⟩) hnin
      · rintro ⟨hcs, hok⟩
        refine ⟨hcs, fun hin => ?_⟩
        have hb := (List.mem_filter.mp hin).2
        simp [hok] at hb

/-- Witness for C3 on a three-member set whose middle member fails:
every member is attempted, the healthy members get the message, and the
failing member is gone afterwards. -/
theorem broadcast_fault_isolation_witness :
    (broadcastConn C3clients "msg").attempted = C3clients ∧
    ((⟨1, true⟩ : Conn), "msg") ∈ (broadcastConn C3clients "msg").delivered ∧
    ((⟨3, true⟩ : Conn), "msg") ∈ (broadcastConn C3clients "msg").delivered := by
  obtain ⟨h1, h2, _⟩ := broadcast_fault_isolation C3clients "msg" (by decide)
  exact ⟨h1, h2 ⟨1, true⟩ (by decide) rfl, h2 ⟨3, true⟩ (by decide) rfl⟩

/-- Claim C4 (code bug): a member whose send fails is pruned by
`broadcast`; when its receive loop then ends, the `finally` block runs
`set.remove` on a set no longer containing it, which raises `KeyError`
(modelled as `none`) instead of being an idempotent no-op as the claim
requires. -/
theorem double_remove_raises :
    (broadcastConn [C4conn] "m").clients = some [] ∧
    handle_client_cleanup [] C4conn = none := by
  exact ⟨by decide, by decide⟩

/-- Claim C5 counterexample: on a one-record registry, `clear_tokens`
does empty the registry but its return value is `None`, not the number
of records removed. -/
theorem clear_tokens_no_count_returned :
    (clear_tokens C5reg).ret ≠ some C5reg.length ∧
    C5reg.length = 1 ∧ (clear_tokens C5reg).tokens = [] := by
  refine ⟨fun h => Option.noConfusion h, rfl, rfl⟩

/-- Claim C5 as amended: `clear_tokens` removes every record and logs
the number removed, but returns `None` (no count is returned to the
caller). -/
theorem clear_tokens_amended (tokens : Registry) :
    (clear_tokens tokens).tokens = [] ∧
    (clear_tokens tokens).logged = tokens.length ∧
    (clear_tokens tokens).ret = none :=
  ⟨rfl, rfl, rfl⟩

/-- Claim C6 (confirmed): a `token_update` frame whose `accessToken` is
missing or empty leaves the registry unchanged, sends no reply, performs
no broadcast, and logs exactly one warning. -/
theorem missing_access_token_no_effect (tokens : Registry) (p : TokenPayload)
    (now : String) (h : tokenPresent p = false) :
    hybrid_handle_message tokens (InMsg.token_update p) now =
      { tokens := tokens, replies := [], broadcasts := [], warnings := 1 } := by
  cases hp : p.accessToken with
  | none => simp [hybrid_handle_message, handle_token_update, hp]
  | some t =>
    have ht : t.isEmpty = true := by
      simpa [tokenPresent, hp] using h
    simp [hybrid_handle_message, handle_token_update, hp, ht]

/-- Witness for C6 at the empty-string access token. -/
theorem missing_access_token_no_effect_witness :
    hybrid_handle_message [] (InMsg.token_update C6payload) "t" =
      { tokens := [], replies := [], broadcasts := [], warnings := 1 } :=
  missing_access_token_no_effect [] C6payload "t" rfl

/-- Claim C7 (confirmed): POST `/api/token` answers 400 with
`status:"error"`, `message:"Missing accessToken field"` and no registry
mutation or broadcast when the parsed body lacks a non-empty
`accessToken`; 200 with `status:"success"` for a non-empty
`accessToken` (absent an unexpected fault); 400 for an undecodable
body; and 500 when an unexpected fault occurs while handling a valid
body. -/
theorem http_token_status_codes (tokens : Registry) (body : HttpBody)
    (fault : Bool) (now : String) :
    (∀ p, body = HttpBody.parsed p → tokenPresent p = false →
      handle_http_token tokens body fault now =
        (tokens, ⟨400, "error", "Missing accessToken field", none⟩, [])) ∧
    (∀ p, body = HttpBody.parsed p → tokenPresent p = true → fault = false →
      (handle_http_token tokens body fault now).2.1.statusCode = 200 ∧
      (handle_http_token tokens body fault now).2.1.status = "success") ∧
    (body = HttpBody.invalid →
      (handle_http_token tokens body fault now).2.1.statusCode = 400) ∧
    (∀ p, body = HttpBody.parsed p → tokenPresent p = true → fault = true →
      (handle_http_token tokens body fault now).2.1.statusCode = 500) := by
  refine ⟨?_, ?_, ?_, ?_⟩
  · rintro p rfl hp
    simp [handle_http_token, hp]
  · rintro p rfl hp rfl
    simp [handle_http_token, hp]
  · rintro rfl
    simp [handle_http_token]
  · rintro p rfl hp rfl
    simp [handle_http_token, hp]

/-- Witness for C7: the empty JSON object gets a 400 with the exact
error body and no mutation. -/
theorem http_token_status_codes_witness :
    handle_http_token [] (HttpBody.parsed C7empty) false "t" =
      ([], ⟨400, "error", "Missing accessToken field", none⟩, []) :=
  (http_token_status_codes [] (HttpBody.parsed C7empty) false "t").1 C7empty rfl rfl

/-- Claim C8 counterexample: with the websockets module unavailable but
aiohttp fully available, `start` returns `False` and the HTTP listener
is never started — failure of the bidirectional capability does prevent
the request/response listener from running. -/
theorem start_ws_failure_blocks_http :
    C8env.aiohttp_available = true ∧ C8env.http_bind_ok = true ∧
    (start C8env).ret = false ∧ (start C8env).http_started = false ∧
    (start C8env).is_running = false :=
  ⟨rfl, rfl, rfl, rfl, rfl⟩

/-- Claim C8 as amended: HTTP-side failure or unavailability never
stops the WebSocket listener (the service still runs), but the converse
does not hold — if the WebSocket capability is unavailable or its bind
fails, `start` returns `False` and the HTTP listener is not started. -/
theorem start_independence_amended (env : StartEnv) :
    (env.websockets_available = true → env.ws_bind_ok = true →
      (start env).ws_started = true ∧ (start env).is_running = true ∧
      (start env).ret = true) ∧
    (env.websockets_available = false ∨ env.ws_bind_ok = false →
      (start env).http_started = false ∧ (start env).ret = false) := by
  obtain ⟨w, a, wb, hb⟩ := env
  cases w <;> cases wb <;> simp [start, start_http_server]

/-- Witness for C8 amended: websockets available, aiohttp missing — the
WebSocket listener runs and `start` reports success. -/
theorem start_independence_amended_witness :
    (start C8envNoHttp).ws_started = true ∧
    (start C8envNoHttp).is_running = true ∧
    (start C8envNoHttp).ret = true :=
  (start_independence_amended C8envNoHttp).1 rfl rfl

/-- Claim C9 counterexample: a single `token_update` frame already
produces different registries (the hybrid record stores a `transport`
key) and different broadcasts (the hybrid `token_received` message
carries a `transport` field), so the two implementations are not
behaviourally equal as claimed. -/
theorem hybrid_ws_not_equal :
    runHybrid [] C9frames ≠ runWS [] C9frames := by
  decide

/-- Claim C9 as amended: the two implementations agree on the
bidirectional transport up to the `transport` field — for every inbound
frame sequence, erasing the `transport` key from the hybrid registry
records and broadcast messages yields exactly the legacy
implementation's registry and broadcasts. -/
theorem hybrid_refines_ws_up_to_transport (frames : List (InMsg × String))
    (tokens : Registry) :
    runWS (eraseRegT tokens) frames =
      (eraseRegT (runHybrid tokens frames).1,
       (runHybrid tokens frames).2.map eraseBMsgT) := by
  induction frames generalizing tokens with
  | nil => simp [runWS, runHybrid]
  | cons f rest ih =>
    obtain ⟨m, now⟩ := f
    have hstep := step_equiv tokens m now
    simp only [runWS, runHybrid]
    rw [hstep.1, ih ((hybrid_handle_message tokens m now).tokens), hstep.2]
    simp [List.map_append]

/-- Claim C10 (confirmed): for a token absent from the registry,
`get_token_info` returns the empty dict (no exception, no distinguished
not-found value), which is exactly what it returns when the token is
stored with an empty record — the two cases are indistinguishable from
the result alone. -/
theorem get_token_info_empty_default (tokens : List (String × RawDict))
    (t : String) (h : dictFind tokens t = none) :
    tokensGet tokens t = [] ∧
    tokensGet ((t, []) :: tokens) t = tokensGet tokens t := by
  constructor
  · simp [tokensGet, h]
  · simp [tokensGet, dictFind, h]

/-- Witness for C10 at a concrete registry and absent key. -/
theorem get_token_info_empty_default_witness :
    tokensGet C10reg "b" = [] ∧
    tokensGet (("b", []) :: C10reg) "b" = tokensGet C10reg "b" :=
  get_token_info_empty_default C10reg "b" (by decide)

end TokenServer
